import Mathlib

/-
  Shallow embedding of the slash-backend ledger service.

  Sources embedded:
  - src/src/db.ts              (store operations and reservation checks)
  - src/unnamed/part_000       (SQL schema and the check_withdraw_request
                                database function)
  - src/unnamed/part_002       (Express server: POST /transaction handler,
                                GET /account handler, startup)

  Modelling conventions:
  - NUMERIC amounts and balances are Int (the claims need only integer
    arithmetic).
  - TIMESTAMPTZ created_at is Option Nat: the store clock is a monotone
    counter (DEFAULT NOW with monotone comparability, per the schema);
    NULL is none.  Rows written through insertTransaction always carry
    some clock value; Option keeps the SQL NULL semantics and the
    fallback's truthiness guards faithful.
  - Store I/O failures and the RPC availability are injected through a
    Faults record: each db.ts function that awaits the persistence layer
    consults its own fault flag and produces the error it would throw.
  - The 3-second Promise.race timeout is the checkTimesOut flag: it decides
    which side of the race settles first.
  - console.warn lines that the spec treats as observable (error surfacing)
    are returned in the result; plain informational console.log lines are
    not modelled.
-/

namespace SlashBackend

/-- Caller-submitted transaction (db.ts interface Transaction). -/
structure Transaction where
  id : String
  type : String
  amount : Int
  accountId : String
  timestamp : String
deriving DecidableEq

/-- Row of the append-only transactions table (db.ts interface
DatabaseTransaction; created_at is store-assigned, nullable in the schema). -/
structure DBTransaction where
  id : String
  type : String
  amount : Int
  account_id : String
  timestamp : String
  created_at : Option Nat
deriving DecidableEq

/-- Persistent store: the transactions log, the accounts table, and the
monotone clock that assigns created_at values. -/
structure Store where
  transactions : List DBTransaction
  accounts : List (String × Int)
  clock : Nat
deriving DecidableEq

def emptyStore : Store := ⟨[], [], 0⟩

/-- Environment variables SUPABASE_URL and SUPABASE_SERVICE_ROLE_KEY. -/
structure Env where
  supabaseUrl : Option String
  supabaseServiceRoleKey : Option String
deriving DecidableEq

def configuredEnv : Env := ⟨some "https://example.supabase.co", some "service-role-key"⟩

def missingEnv : Env := ⟨none, none⟩

/-- Injected store/infrastructure failures, one flag per awaited operation
in db.ts; checkTimesOut decides the Promise.race in the handler. -/
structure Faults where
  insertFails : Bool
  balanceReadFails : Bool
  balanceWriteFails : Bool
  rpcFails : Bool
  requestsQueryFails : Bool
  withdrawsQueryFails : Bool
  checkTimesOut : Bool
deriving DecidableEq

def noFaults : Faults := ⟨false, false, false, false, false, false, false⟩

def credsError : String :=
  "Missing Supabase credentials: SUPABASE_URL and SUPABASE_SERVICE_ROLE_KEY must be set"

/-- db.ts getSupabaseClient: throws when either credential is absent.
The memoised singleton is semantically idempotent, so the caching is not
modelled. (JS also treats an empty string as missing; the model only
distinguishes set/absent.) -/
def getSupabaseClient (env : Env) : Except String Unit :=
  match env.supabaseUrl, env.supabaseServiceRoleKey with
  | some _, some _ => Except.ok ()
  | _, _ => Except.error credsError

/-- The database row produced for a transaction inserted at clock time now
(insertTransaction builds it without created_at; the store fills DEFAULT NOW). -/
def toRow (t : Transaction) (now : Nat) : DBTransaction :=
  ⟨t.id, t.type, t.amount, t.accountId, t.timestamp, some now⟩

/-- db.ts insertTransaction: append to the log; a duplicate id raises the
PostgreSQL 23505 unique violation, which is logged and skipped (treated as
success with no side effect); any other store failure is thrown. -/
def insertTransaction (env : Env) (f : Faults) (t : Transaction) (s : Store) :
    Except String Store :=
  match getSupabaseClient env with
  | Except.error e => Except.error e
  | Except.ok _ =>
    if f.insertFails then
      Except.error "Failed to insert transaction: store unavailable"
    else if s.transactions.any (fun r => r.id == t.id) then
      Except.ok s
    else
      Except.ok { s with transactions := s.transactions ++ [toRow t s.clock],
                         clock := s.clock + 1 }

/-- Balance lookup in the accounts table; a missing row reads as 0
(db.ts getAccountBalance, PGRST116 branch and the `data?.balance || 0`). -/
def Store.balanceOf (s : Store) (aid : String) : Int :=
  match s.accounts.find? (fun p => p.1 == aid) with
  | some p => p.2
  | none => 0

/-- db.ts getAccountBalance. -/
def getAccountBalance (env : Env) (f : Faults) (aid : String) (s : Store) :
    Except String Int :=
  match getSupabaseClient env with
  | Except.error e => Except.error e
  | Except.ok _ =>
    if f.balanceReadFails then
      Except.error "Failed to get account balance: store unavailable"
    else
      Except.ok (s.balanceOf aid)

/-- Upsert on the accounts primary key (ON CONFLICT account_id): replace the
existing row or append a fresh one. -/
def upsertBalance : List (String × Int) → String → Int → List (String × Int)
  | [], aid, b => [(aid, b)]
  | p :: rest, aid, b =>
    if p.1 == aid then (aid, b) :: rest else p :: upsertBalance rest aid b

/-- db.ts updateAccountBalance. -/
def updateAccountBalance (env : Env) (f : Faults) (aid : String) (newBalance : Int)
    (s : Store) : Except String Store :=
  match getSupabaseClient env with
  | Except.error e => Except.error e
  | Except.ok _ =>
    if f.balanceWriteFails then
      Except.error "Failed to update account balance: store unavailable"
    else
      Except.ok { s with accounts := upsertBalance s.accounts aid newBalance }

/-- db.ts incrementAccountBalance: a read of the current balance followed by
a write of balance + amount, two separate store round-trips with no lock. -/
def incrementAccountBalance (env : Env) (f : Faults) (aid : String) (amount : Int)
    (s : Store) : Except String Store :=
  match getSupabaseClient env with
  | Except.error e => Except.error e
  | Except.ok _ =>
    match getAccountBalance env f aid s with
    | Except.error e => Except.error e
    | Except.ok currentBalance =>
      updateAccountBalance env f aid (currentBalance + amount) s

/-- db.ts decrementAccountBalance: read then write of balance - amount. -/
def decrementAccountBalance (env : Env) (f : Faults) (aid : String) (amount : Int)
    (s : Store) : Except String Store :=
  match getSupabaseClient env with
  | Except.error e => Except.error e
  | Except.ok _ =>
    match getAccountBalance env f aid s with
    | Except.error e => Except.error e
    | Except.ok currentBalance =>
      updateAccountBalance env f aid (currentBalance - amount) s

/-- The comparison w.created_at >= t.created_at as both code paths evaluate
it: SQL three-valued logic makes it unsatisfied when either side is NULL
(part_000 check_withdraw_request), and the fallback guards with
`w.created_at && request.created_at &&` before comparing (db.ts line 246). -/
def createdGe : Option Nat → Option Nat → Bool
  | some w, some r => decide (r ≤ w)
  | _, _ => false

/-- Pending approved amount as computed inside the SQL function
check_withdraw_request (part_000): sum of amounts of the account's
withdraw_request rows for which no withdraw row of the same account has
created_at >= theirs (COALESCE makes the empty sum 0). -/
def sqlPendingAmount (log : List DBTransaction) (aid : String) : Int :=
  ((log.filter (fun t =>
      t.account_id == aid && t.type == "withdraw_request" &&
      !(log.any (fun w =>
          w.account_id == t.account_id && w.type == "withdraw" &&
          createdGe w.created_at t.created_at)))).map (fun t => t.amount)).sum

/-- SQL function check_withdraw_request (part_000), decision value.  The
row lock and the ON CONFLICT insert of a 0-balance row for a missing
account are invisible here: a missing account already reads as balance 0. -/
def check_withdraw_request (s : Store) (p_account_id : String)
    (p_requested_amount : Int) : Bool :=
  let v_current_balance := s.balanceOf p_account_id
  let v_pending_amount := sqlPendingAmount s.transactions p_account_id
  let v_available_balance := v_current_balance - v_pending_amount
  decide (v_available_balance ≥ p_requested_amount)

/-- db.ts fallback, per-request test: some withdraw in the fetched list has
created_at at or after the request's (nulls fail the truthiness guards). -/
def hasCorrespondingWithdraw (withdraws : List DBTransaction)
    (request : DBTransaction) : Bool :=
  withdraws.any (fun w => createdGe w.created_at request.created_at)

/-- db.ts fallback, accumulation loop: pendingAmount starts at 0 and gains
request.amount for every request with no corresponding withdraw. -/
def fallbackPendingAmount (withdrawRequests withdraws : List DBTransaction) : Int :=
  withdrawRequests.foldl
    (fun pendingAmount request =>
      if hasCorrespondingWithdraw withdraws request then pendingAmount
      else pendingAmount + request.amount)
    0

/-- db.ts checkAndReserveBalanceFallback as a pure decision over a store
snapshot: current balance, the two per-account per-type row fetches, the
pending sum, and availableBalance >= requestedAmount.  The source's ORDER BY
created_at only fixes iteration order; the accumulated sum is
order-independent, so the embedding keeps log order. -/
def checkAndReserveBalanceFallbackPure (s : Store) (accountId : String)
    (requestedAmount : Int) : Bool :=
  let currentBalance := s.balanceOf accountId
  let withdrawRequests := s.transactions.filter
    (fun t => t.account_id == accountId && t.type == "withdraw_request")
  let withdraws := s.transactions.filter
    (fun t => t.account_id == accountId && t.type == "withdraw")
  let pendingAmount := fallbackPendingAmount withdrawRequests withdraws
  let availableBalance := currentBalance - pendingAmount
  decide (availableBalance ≥ requestedAmount)

/-- db.ts checkAndReserveBalanceFallback, I/O shell: client check, the
balance read and the two row queries can each fail with the thrown message;
otherwise the decision is the pure computation above on the snapshot. -/
def checkAndReserveBalanceFallback (env : Env) (f : Faults) (accountId : String)
    (requestedAmount : Int) (s : Store) : Except String Bool :=
  match getSupabaseClient env with
  | Except.error e => Except.error e
  | Except.ok _ =>
    match getAccountBalance env f accountId s with
    | Except.error e => Except.error e
    | Except.ok _currentBalance =>
      if f.requestsQueryFails then
        Except.error "Failed to check pending withdraw requests: store unavailable"
      else if f.withdrawsQueryFails then
        Except.error "Failed to check withdraws: store unavailable"
      else
        Except.ok (checkAndReserveBalanceFallbackPure s accountId requestedAmount)

def rpcFallbackWarning : String :=
  "RPC function not available, using fallback method: rpc error"

/-- db.ts checkAndReserveBalance: call the check_withdraw_request RPC; on
any RPC error, console.warn and use the fallback.  The second component
collects the console.warn lines; the decision is data === true. -/
def checkAndReserveBalance (env : Env) (f : Faults) (accountId : String)
    (requestedAmount : Int) (s : Store) : Except String Bool × List String :=
  match getSupabaseClient env with
  | Except.error e => (Except.error e, [])
  | Except.ok _ =>
    if f.rpcFails then
      (checkAndReserveBalanceFallback env f accountId requestedAmount s,
       [rpcFallbackWarning])
    else
      (Except.ok (check_withdraw_request s accountId requestedAmount), [])

/-- Observable outcome of one POST /transaction request: HTTP status, the
error string of a 500 JSON body when present, the store afterwards, and the
console.warn lines emitted. -/
structure HttpResult where
  status : Nat
  errorMessage : Option String
  store : Store
  warnings : List String
deriving DecidableEq

def timeoutWarning : String := "Withdraw request TIMEOUT"

/-- POST /transaction handler (part_002 lines 40-186).  Per type:
deposit inserts then increments; withdraw_request races the reservation
check against the 3s timer (timeout: 402 with nothing inserted; the inner
catch only recognises the Timeout error and rethrows others to the outer
catch, which answers 500 with the error message); withdraw inserts then
decrements; any other type answers 400 before touching the store.  The
post-decision getAccountBalance read (line 95) and the post-mutation reads
(lines 59 and 148) feed console.log but can themselves throw. -/
def handleTransaction (env : Env) (f : Faults) (t : Transaction) (s : Store) :
    HttpResult :=
  if t.type == "deposit" then
    match insertTransaction env f t s with
    | Except.error e => ⟨500, some e, s, []⟩
    | Except.ok s1 =>
      match incrementAccountBalance env f t.accountId t.amount s1 with
      | Except.error e => ⟨500, some e, s1, []⟩
      | Except.ok s2 =>
        match getAccountBalance env f t.accountId s2 with
        | Except.error e => ⟨500, some e, s2, []⟩
        | Except.ok _ => ⟨200, none, s2, []⟩
  else if t.type == "withdraw_request" then
    if f.checkTimesOut then
      ⟨402, none, s, [timeoutWarning]⟩
    else
      match checkAndReserveBalance env f t.accountId t.amount s with
      | (Except.error e, ws) => ⟨500, some e, s, ws⟩
      | (Except.ok approved, ws) =>
        match getAccountBalance env f t.accountId s with
        | Except.error e => ⟨500, some e, s, ws⟩
        | Except.ok _currentBalance =>
          match insertTransaction env f t s with
          | Except.error e => ⟨500, some e, s, ws⟩
          | Except.ok s1 =>
            if approved then ⟨201, none, s1, ws⟩ else ⟨402, none, s1, ws⟩
  else if t.type == "withdraw" then
    match insertTransaction env f t s with
    | Except.error e => ⟨500, some e, s, []⟩
    | Except.ok s1 =>
      match decrementAccountBalance env f t.accountId t.amount s1 with
      | Except.error e => ⟨500, some e, s1, []⟩
      | Except.ok s2 =>
        match getAccountBalance env f t.accountId s2 with
        | Except.error e => ⟨500, some e, s2, []⟩
        | Except.ok _ => ⟨200, none, s2, []⟩
  else
    ⟨400, none, s, []⟩

/-- What app.listen's callback observes at startup (part_002 lines 217-227):
the server starts unconditionally and only logs whether each credential is
configured. -/
structure StartupResult where
  started : Bool
  supabaseUrlLine : String
  supabaseKeyLine : String
deriving DecidableEq

def startServer (env : Env) : StartupResult :=
  { started := true
    supabaseUrlLine := if env.supabaseUrl.isSome then "Configured" else "NOT SET"
    supabaseKeyLine := if env.supabaseServiceRoleKey.isSome then "Configured" else "NOT SET" }

end SlashBackend

namespace SlashBackend

/-
  Fine-grained model of incrementAccountBalance for the concurrency claim:
  the function is a balance read (getAccountBalance) followed by a balance
  write (updateAccountBalance of readValue + amount), two separate store
  round-trips with no lock in between, so two in-flight calls interleave at
  those suspension points.
-/

/-- One in-flight incrementAccountBalance call on a fixed account: its
amount, the balance its read returned (none until the read ran), and
whether its write ran. -/
structure IncTask where
  amount : Int
  readValue : Option Int
  done : Bool
deriving DecidableEq

def mkIncTask (a : Int) : IncTask := ⟨a, none, false⟩

/-- Advance one task by one store round-trip: first its read, then its
write of readValue + amount (db.ts incrementAccountBalance lines 132-142). -/
def stepInc (bal : Int) (t : IncTask) : Int × IncTask :=
  match t.readValue with
  | none => (bal, { t with readValue := some bal })
  | some v => if t.done then (bal, t) else (v + t.amount, { t with done := true })

/-- Run two concurrent increments under a schedule: true steps the first
task, false the second; returns the final balance. -/
def runIncSchedule : List Bool → Int → IncTask → IncTask → Int
  | [], bal, _, _ => bal
  | step :: rest, bal, t0, t1 =>
    if step then
      let r := stepInc bal t0
      runIncSchedule rest r.1 r.2 t1
    else
      let r := stepInc bal t1
      runIncSchedule rest r.1 t0 r.2

/-
  Specification-side definitions (from the claims' wording, for comparison
  with the code-side computations above).
-/

/-- A withdraw_request row is unresolved in a log when no withdraw row of
the same account has created_at at or after it (claim C2's wording; rows
written by insertTransaction always carry a created_at value). -/
def unresolvedIn (log : List DBTransaction) (r : DBTransaction) : Prop :=
  ¬ ∃ w ∈ log, w.account_id = r.account_id ∧ w.type = "withdraw" ∧
      createdGe w.created_at r.created_at = true

instance (log : List DBTransaction) (r : DBTransaction) :
    Decidable (unresolvedIn log r) := by
  unfold unresolvedIn
  infer_instance

/-- The claims' pending amount P: sum of amounts of the account's
unresolved withdraw_request rows. -/
def pendingSpecAmount (log : List DBTransaction) (aid : String) : Int :=
  ((log.filter (fun r =>
      decide (r.account_id = aid ∧ r.type = "withdraw_request" ∧ unresolvedIn log r))).map
    (fun r => r.amount)).sum

/-
  Helper lemmas.
-/

theorem bool_eq_of_iff {a b : Bool} (h : a = true ↔ b = true) : a = b := by
  cases a <;> cases b <;> simp_all

theorem filter_ext {α : Type} (p q : α → Bool) :
    ∀ l : List α, (∀ x ∈ l, p x = q x) → l.filter p = l.filter q
  | [], _ => rfl
  | a :: l, h => by
    have ha := h a (List.mem_cons_self a l)
    have hl := filter_ext p q l (fun x hx => h x (List.mem_cons_of_mem a hx))
    simp [List.filter_cons, ha, hl]

theorem filter_then_filter {α : Type} (p q : α → Bool) :
    ∀ l : List α, (l.filter p).filter q = l.filter (fun a => p a && q a)
  | [] => rfl
  | a :: l => by
    by_cases h : p a = true <;>
      simp [List.filter_cons, h, filter_then_filter p q l]

theorem any_filter {α : Type} (p q : α → Bool) :
    ∀ l : List α, (l.filter p).any q = l.any (fun a => p a && q a)
  | [] => rfl
  | a :: l => by
    by_cases h : p a = true <;>
      simp [List.filter_cons, List.any_cons, h, any_filter p q l]

/-- The SQL function's pending filter coincides pointwise with the claims'
unresolved-request predicate. -/
theorem sql_pred_eq (log : List DBTransaction) (aid : String) (t : DBTransaction) :
    (t.account_id == aid && t.type == "withdraw_request" &&
      !(log.any (fun w =>
          w.account_id == t.account_id && w.type == "withdraw" &&
          createdGe w.created_at t.created_at)))
    = decide (t.account_id = aid ∧ t.type = "withdraw_request" ∧ unresolvedIn log t) := by
  apply bool_eq_of_iff
  simp [unresolvedIn, List.any_eq_true, Bool.and_eq_true, beq_iff_eq,
    Bool.not_eq_true', List.any_eq_false, decide_eq_true_eq, and_assoc]

/-- The pending amount of the SQL atomic path equals the claims' P. -/
theorem sqlPending_eq_spec (log : List DBTransaction) (aid : String) :
    sqlPendingAmount log aid = pendingSpecAmount log aid := by
  unfold sqlPendingAmount pendingSpecAmount
  rw [filter_ext _ _ log (fun t _ => sql_pred_eq log aid t)]

/-- The fallback's accumulation loop is the sum over the requests with no
corresponding withdraw. -/
theorem foldl_pending (wds : List DBTransaction) (l : List DBTransaction) :
    ∀ acc : Int,
      l.foldl (fun pendingAmount request =>
          if hasCorrespondingWithdraw wds request then pendingAmount
          else pendingAmount + request.amount) acc
      = acc + ((l.filter (fun r => !hasCorrespondingWithdraw wds r)).map
          (fun r => r.amount)).sum := by
  induction l with
  | nil => intro acc; simp
  | cons r l ih =>
    intro acc
    by_cases h : hasCorrespondingWithdraw wds r = true
    · simp [List.foldl_cons, h, ih acc, List.filter_cons]
    · simp only [List.foldl_cons, List.filter_cons, h, if_neg, Bool.not_eq_true] at *
      simp [h, ih (acc + r.amount)]
      omega

theorem fallbackPending_eq_filter (wds l : List DBTransaction) :
    fallbackPendingAmount l wds
      = ((l.filter (fun r => !hasCorrespondingWithdraw wds r)).map
          (fun r => r.amount)).sum := by
  unfold fallbackPendingAmount
  rw [foldl_pending wds l 0]
  omega

/-- The fallback's combined row filter coincides pointwise with the claims'
unresolved-request predicate (inside the conjunction the request's account
is the queried account, so searching the account-filtered withdraw rows
equals searching the whole log for withdraws of the request's account). -/
theorem fallback_pred_eq (log : List DBTransaction) (aid : String) (t : DBTransaction) :
    ((t.account_id == aid && t.type == "withdraw_request") &&
      !(hasCorrespondingWithdraw
          (log.filter (fun w => w.account_id == aid && w.type == "withdraw")) t))
    = decide (t.account_id = aid ∧ t.type = "withdraw_request" ∧ unresolvedIn log t) := by
  apply bool_eq_of_iff
  simp [hasCorrespondingWithdraw, any_filter, unresolvedIn, List.any_eq_true,
    Bool.and_eq_true, beq_iff_eq, Bool.not_eq_true', List.any_eq_false,
    decide_eq_true_eq, and_assoc]
  intro h1 _
  rw [h1]

/-- The pending amount of the fallback path equals the claims' P. -/
theorem fallbackPending_eq_spec (log : List DBTransaction) (aid : String) :
    fallbackPendingAmount
      (log.filter (fun t => t.account_id == aid && t.type == "withdraw_request"))
      (log.filter (fun t => t.account_id == aid && t.type == "withdraw"))
    = pendingSpecAmount log aid := by
  rw [fallbackPending_eq_filter]
  unfold pendingSpecAmount
  rw [filter_then_filter]
  rw [filter_ext _ _ log (fun t _ => fallback_pred_eq log aid t)]

theorem find_upsert_self (l : List (String × Int)) (aid : String) (b : Int) :
    (upsertBalance l aid b).find? (fun p => p.1 == aid) = some (aid, b) := by
  induction l with
  | nil => simp [upsertBalance, List.find?]
  | cons p rest ih =>
    by_cases h : p.1 == aid
    · simp [upsertBalance, h, List.find?]
    · simp [upsertBalance, h, List.find?, ih]

end SlashBackend

namespace SlashBackend

/-
  Claim theorems.
-/

/-- C1. Claimed: resubmitting a transaction id already in the log is an
idempotent no-op end to end, with the balance unchanged by the
resubmission.  The code violates this: insertTransaction skips the
duplicate row (the log stays deduplicated and the request succeeds), but
the deposit handler then unconditionally re-applies the balance delta, so
a resubmitted deposit of 100 leaves balance 200 instead of 100. -/
theorem c1_resubmitted_deposit_double_applies :
    (handleTransaction configuredEnv noFaults ⟨"t1", "deposit", 100, "acc1", "ts1"⟩ emptyStore).status = 200 ∧
    (handleTransaction configuredEnv noFaults ⟨"t1", "deposit", 100, "acc1", "ts1"⟩ emptyStore).store.balanceOf "acc1" = 100 ∧
    (handleTransaction configuredEnv noFaults ⟨"t1", "deposit", 100, "acc1", "ts1"⟩
      (handleTransaction configuredEnv noFaults ⟨"t1", "deposit", 100, "acc1", "ts1"⟩ emptyStore).store).status = 200 ∧
    (handleTransaction configuredEnv noFaults ⟨"t1", "deposit", 100, "acc1", "ts1"⟩
      (handleTransaction configuredEnv noFaults ⟨"t1", "deposit", 100, "acc1", "ts1"⟩ emptyStore).store).store.transactions.length = 1 ∧
    (handleTransaction configuredEnv noFaults ⟨"t1", "deposit", 100, "acc1", "ts1"⟩
      (handleTransaction configuredEnv noFaults ⟨"t1", "deposit", 100, "acc1", "ts1"⟩ emptyStore).store).store.balanceOf "acc1" = 200 := by
  decide

/-- C2. For every store, account and requested amount A, both reservation
check code paths approve exactly when B - P >= A, where B is the account's
current balance and P the sum of its pending (unresolved) withdraw_requests
— a request being unresolved exactly when no withdraw of the same account
has created_at at or after it.  Equality approves since the comparison is
a non-strict >=. -/
theorem c2_reservation_decision_iff (s : Store) (aid : String) (A : Int) :
    (check_withdraw_request s aid A = true ↔
       s.balanceOf aid - pendingSpecAmount s.transactions aid ≥ A) ∧
    (checkAndReserveBalanceFallbackPure s aid A = true ↔
       s.balanceOf aid - pendingSpecAmount s.transactions aid ≥ A) := by
  constructor
  · unfold check_withdraw_request
    rw [sqlPending_eq_spec]
    simp [decide_eq_true_eq]
  · unfold checkAndReserveBalanceFallbackPure
    simp only [decide_eq_true_eq, ge_iff_le]
    rw [fallbackPending_eq_spec]

/-- C3. Claimed: a timed-out reservation check is denied (402) AND the
withdraw_request is still recorded in the log.  The code answers 402 but
the timeout branch returns without inserting anything: the store is left
exactly as before, so the audit trail misses the timed-out request. -/
theorem c3_timeout_denied_but_unlogged :
    (handleTransaction configuredEnv { noFaults with checkTimesOut := true }
      ⟨"t2", "withdraw_request", 60, "acc1", "ts2"⟩ emptyStore).status = 402 ∧
    (handleTransaction configuredEnv { noFaults with checkTimesOut := true }
      ⟨"t2", "withdraw_request", 60, "acc1", "ts2"⟩ emptyStore).store = emptyStore := by
  decide

/-- C4. Claimed: per-account balance mutations are linearized, so deposits
totaling D on an empty account always end at D.  incrementAccountBalance
is an unlocked read-then-write; under the interleaving that runs both
reads before either write, two concurrent deposits of 100 on an empty
account end at balance 100, not 200 — one increment is lost.  The
serialized schedule does end at 200. -/
theorem c4_interleaved_increments_lose_update :
    runIncSchedule [true, true, false, false] 0 (mkIncTask 100) (mkIncTask 100) = 200 ∧
    runIncSchedule [true, false, true, false] 0 (mkIncTask 100) (mkIncTask 100) = 100 ∧
    (100 : Int) ≠ 100 + 100 := by
  decide

/-- C5 counterexample. Claimed: a withdraw_request whose reservation check
fails with a non-timeout infrastructure error is conservatively denied.
On an RPC error the code instead falls back to the non-atomic check, which
can approve: with balance 100 and an RPC failure, a request for 60 is
answered 201 (approved), not a denial. -/
theorem c5_rpc_error_still_approves :
    (handleTransaction configuredEnv { noFaults with rpcFails := true }
      ⟨"t2", "withdraw_request", 60, "acc1", "ts2"⟩
      ⟨[toRow ⟨"t1", "deposit", 100, "acc1", "ts1"⟩ 0], [("acc1", 100)], 1⟩).status = 201 := by
  decide

/-- C5 amended. On a non-timeout infrastructure error during the
reservation check the error is surfaced rather than swallowed: an RPC
failure is logged via console.warn and the decision is delegated to the
fallback check (which may approve or deny); if the check fails outright
the handler answers 500 whose body carries the error message — but denial
is not guaranteed. -/
theorem c5_check_error_surfaced (s : Store) (t : Transaction) (f : Faults)
    (htype : t.type = "withdraw_request") (hto : f.checkTimesOut = false)
    (hrpc : f.rpcFails = true) :
    (handleTransaction configuredEnv f t s).warnings = [rpcFallbackWarning] ∧
    ((handleTransaction configuredEnv f t s).status = 500 →
      (handleTransaction configuredEnv f t s).errorMessage ≠ none) := by
  have hd : (t.type == "deposit") = false := by rw [htype]; decide
  have hwr : (t.type == "withdraw_request") = true := by rw [htype]; decide
  unfold handleTransaction
  rw [hd]
  simp only [Bool.false_eq_true, if_false, hwr, if_true, hto]
  unfold checkAndReserveBalance checkAndReserveBalanceFallback insertTransaction getAccountBalance getSupabaseClient configuredEnv
  simp only [hrpc, if_true]
  by_cases hbr : f.balanceReadFails = true
  · simp [hbr]
  · simp only [Bool.not_eq_true] at hbr
    by_cases hrq : f.requestsQueryFails = true
    · simp [hbr, hrq]
    · simp only [Bool.not_eq_true] at hrq
      by_cases hwq : f.withdrawsQueryFails = true
      · simp [hbr, hrq, hwq]
      · simp only [Bool.not_eq_true] at hwq
        by_cases hins : f.insertFails = true
        · simp [hbr, hrq, hwq, hins]
        · simp only [Bool.not_eq_true] at hins
          by_cases happ : checkAndReserveBalanceFallbackPure s t.accountId t.amount = true
          · by_cases hdup : s.transactions.any (fun r => r.id == t.id) = true
            · simp [happ, hdup, hbr, hrq, hwq, hins]
            · simp only [Bool.not_eq_true] at hdup
              simp [happ, hdup, hbr, hrq, hwq, hins]
          · simp only [Bool.not_eq_true] at happ
            by_cases hdup : s.transactions.any (fun r => r.id == t.id) = true
            · simp [happ, hdup, hbr, hrq, hwq, hins]
            · simp only [Bool.not_eq_true] at hdup
              simp [happ, hdup, hbr, hrq, hwq, hins]

/-- C5 witness: the amended theorem applied to a concrete withdraw_request
under an injected RPC failure. -/
theorem c5_check_error_surfaced_witness :
    (handleTransaction configuredEnv { noFaults with rpcFails := true }
      ⟨"t2", "withdraw_request", 60, "acc1", "ts2"⟩ emptyStore).warnings = [rpcFallbackWarning] ∧
    ((handleTransaction configuredEnv { noFaults with rpcFails := true }
        ⟨"t2", "withdraw_request", 60, "acc1", "ts2"⟩ emptyStore).status = 500 →
      (handleTransaction configuredEnv { noFaults with rpcFails := true }
        ⟨"t2", "withdraw_request", 60, "acc1", "ts2"⟩ emptyStore).errorMessage ≠ none) := by
  exact c5_check_error_surfaced emptyStore ⟨"t2", "withdraw_request", 60, "acc1", "ts2"⟩
    { noFaults with rpcFails := true } rfl rfl rfl

/-- C6. The atomic path (SQL check_withdraw_request) and the fallback path
compute the same pending amount over every store snapshot and render the
same approve/deny decision for every requested amount. -/
theorem c6_atomic_and_fallback_agree (s : Store) (aid : String) (amt : Int) :
    sqlPendingAmount s.transactions aid
      = fallbackPendingAmount
          (s.transactions.filter (fun t => t.account_id == aid && t.type == "withdraw_request"))
          (s.transactions.filter (fun t => t.account_id == aid && t.type == "withdraw")) ∧
    check_withdraw_request s aid amt = checkAndReserveBalanceFallbackPure s aid amt := by
  constructor
  · rw [sqlPending_eq_spec, fallbackPending_eq_spec]
  · unfold check_withdraw_request checkAndReserveBalanceFallbackPure
    simp only []
    rw [sqlPending_eq_spec, fallbackPending_eq_spec]

end SlashBackend

namespace SlashBackend

/-- C7 counterexample. Claimed: a deposit that fails with a store error
leaves no partial state — never the transaction appended while its balance
delta is unapplied.  When the log append succeeds and the balance write
then fails, the handler answers 500 with the transaction in the log and
the balance untouched: exactly the forbidden partial state. -/
theorem c7_partial_state_on_store_error :
    (handleTransaction configuredEnv { noFaults with balanceWriteFails := true }
      ⟨"t1", "deposit", 100, "acc1", "ts1"⟩ emptyStore).status = 500 ∧
    (handleTransaction configuredEnv { noFaults with balanceWriteFails := true }
      ⟨"t1", "deposit", 100, "acc1", "ts1"⟩ emptyStore).store.transactions
      = [toRow ⟨"t1", "deposit", 100, "acc1", "ts1"⟩ 0] ∧
    (handleTransaction configuredEnv { noFaults with balanceWriteFails := true }
      ⟨"t1", "deposit", 100, "acc1", "ts1"⟩ emptyStore).store.balanceOf "acc1" = 0 := by
  decide

/-- C7 amended. The log append itself is all-or-nothing, but a deposit or
withdraw request as a whole is not: for either type, a store error in the
balance write after a successful append leaves the transaction in the log
with its balance delta unapplied; the failure is surfaced as a 500
carrying the store error message. -/
theorem c7_append_atomic_but_delta_lost (s : Store) (t : Transaction)
    (htype : t.type = "deposit" ∨ t.type = "withdraw")
    (hfresh : (s.transactions.any (fun r => r.id == t.id)) = false) :
    (handleTransaction configuredEnv { noFaults with balanceWriteFails := true } t s).status = 500 ∧
    (handleTransaction configuredEnv { noFaults with balanceWriteFails := true } t s).store.transactions
      = s.transactions ++ [toRow t s.clock] ∧
    (handleTransaction configuredEnv { noFaults with balanceWriteFails := true } t s).store.accounts
      = s.accounts ∧
    (handleTransaction configuredEnv { noFaults with balanceWriteFails := true } t s).errorMessage
      = some "Failed to update account balance: store unavailable" := by
  rcases htype with htype | htype
  · have hd : (t.type == "deposit") = true := by rw [htype]; decide
    unfold handleTransaction
    rw [hd]
    simp only [if_true]
    unfold insertTransaction incrementAccountBalance getAccountBalance updateAccountBalance getSupabaseClient configuredEnv noFaults
    simp [hfresh]
  · have hd : (t.type == "deposit") = false := by rw [htype]; decide
    have hwr : (t.type == "withdraw_request") = false := by rw [htype]; decide
    have hw : (t.type == "withdraw") = true := by rw [htype]; decide
    unfold handleTransaction
    rw [hd]
    simp only [Bool.false_eq_true, if_false, hwr, hw, if_true]
    unfold insertTransaction decrementAccountBalance getAccountBalance updateAccountBalance getSupabaseClient configuredEnv noFaults
    simp [hfresh]

/-- C7 witness: the amended theorem applied to a concrete fresh deposit
with the balance write failing. -/
theorem c7_append_atomic_but_delta_lost_witness :
    (handleTransaction configuredEnv { noFaults with balanceWriteFails := true }
      ⟨"t1", "deposit", 100, "acc1", "ts1"⟩ emptyStore).status = 500 ∧
    (handleTransaction configuredEnv { noFaults with balanceWriteFails := true }
      ⟨"t1", "deposit", 100, "acc1", "ts1"⟩ emptyStore).store.transactions
      = emptyStore.transactions ++ [toRow ⟨"t1", "deposit", 100, "acc1", "ts1"⟩ emptyStore.clock] ∧
    (handleTransaction configuredEnv { noFaults with balanceWriteFails := true }
      ⟨"t1", "deposit", 100, "acc1", "ts1"⟩ emptyStore).store.accounts = emptyStore.accounts ∧
    (handleTransaction configuredEnv { noFaults with balanceWriteFails := true }
      ⟨"t1", "deposit", 100, "acc1", "ts1"⟩ emptyStore).errorMessage
      = some "Failed to update account balance: store unavailable" := by
  exact c7_append_atomic_but_delta_lost emptyStore ⟨"t1", "deposit", 100, "acc1", "ts1"⟩ (Or.inl rfl) rfl

/-- C8. Claimed: missing store configuration fails fast at startup with a
clear error.  The server starts regardless (app.listen runs and only logs
NOT SET); the failure happens lazily in getSupabaseClient on the first
store-touching request, which surfaces as a 500 transaction failure
carrying the missing-credentials message. -/
theorem c8_missing_config_fails_lazily :
    (startServer missingEnv).started = true ∧
    (startServer missingEnv).supabaseUrlLine = "NOT SET" ∧
    (handleTransaction missingEnv noFaults ⟨"t1", "deposit", 100, "acc1", "ts1"⟩ emptyStore).status = 500 ∧
    (handleTransaction missingEnv noFaults ⟨"t1", "deposit", 100, "acc1", "ts1"⟩ emptyStore).errorMessage
      = some credsError := by
  decide

/-- C9. Every withdraw submission with a fresh id, whatever the current
balance, is appended to the log, decrements the balance by the full
requested amount, and answers 200: no approval gate is applied and the
balance may go negative. -/
theorem c9_withdraw_always_applies (s : Store) (t : Transaction)
    (htype : t.type = "withdraw")
    (hfresh : (s.transactions.any (fun r => r.id == t.id)) = false) :
    (handleTransaction configuredEnv noFaults t s).status = 200 ∧
    (handleTransaction configuredEnv noFaults t s).store.transactions
      = s.transactions ++ [toRow t s.clock] ∧
    (handleTransaction configuredEnv noFaults t s).store.balanceOf t.accountId
      = s.balanceOf t.accountId - t.amount := by
  have hd : (t.type == "deposit") = false := by rw [htype]; decide
  have hwr : (t.type == "withdraw_request") = false := by rw [htype]; decide
  have hw : (t.type == "withdraw") = true := by rw [htype]; decide
  unfold handleTransaction
  rw [hd]
  simp only [Bool.false_eq_true, if_false, hwr, hw, if_true]
  unfold insertTransaction decrementAccountBalance getAccountBalance updateAccountBalance getSupabaseClient configuredEnv noFaults
  simp only [hfresh]
  simp [Store.balanceOf, find_upsert_self]

/-- C9 witness: a withdraw of 50 on an empty account succeeds with 200,
is logged, and drives the balance to -50. -/
theorem c9_withdraw_always_applies_witness :
    (handleTransaction configuredEnv noFaults ⟨"t4", "withdraw", 50, "acc1", "ts4"⟩ emptyStore).status = 200 ∧
    (handleTransaction configuredEnv noFaults ⟨"t4", "withdraw", 50, "acc1", "ts4"⟩ emptyStore).store.transactions
      = [toRow ⟨"t4", "withdraw", 50, "acc1", "ts4"⟩ 0] ∧
    (handleTransaction configuredEnv noFaults ⟨"t4", "withdraw", 50, "acc1", "ts4"⟩ emptyStore).store.balanceOf "acc1"
      = -50 := by
  have h := c9_withdraw_always_applies emptyStore ⟨"t4", "withdraw", 50, "acc1", "ts4"⟩ rfl rfl
  simpa [emptyStore, Store.balanceOf] using h

/-- C10. The handler validates no amount: every recognized transaction
type is accepted with a non-error status whatever the amount, and a
deposit applies its amount arithmetically to the balance — including zero
and negative amounts, which are never rejected with a client error. -/
theorem c10_no_amount_validation (s : Store) (t : Transaction)
    (hrec : t.type = "deposit" ∨ t.type = "withdraw_request" ∨ t.type = "withdraw") :
    ((handleTransaction configuredEnv noFaults t s).status = 200 ∨
     (handleTransaction configuredEnv noFaults t s).status = 201 ∨
     (handleTransaction configuredEnv noFaults t s).status = 402) ∧
    (t.type = "deposit" →
      (handleTransaction configuredEnv noFaults t s).status = 200 ∧
      (handleTransaction configuredEnv noFaults t s).store.balanceOf t.accountId
        = s.balanceOf t.accountId + t.amount) := by
  rcases hrec with htype | htype | htype
  · have hd : (t.type == "deposit") = true := by rw [htype]; decide
    unfold handleTransaction
    rw [hd]
    simp only [if_true]
    unfold insertTransaction incrementAccountBalance getAccountBalance updateAccountBalance getSupabaseClient configuredEnv noFaults
    by_cases hdup : s.transactions.any (fun r => r.id == t.id) = true
    · simp only [hdup]
      simp [Store.balanceOf, find_upsert_self]
    · simp only [Bool.not_eq_true] at hdup
      simp only [hdup]
      simp [Store.balanceOf, find_upsert_self]
  · have hd : (t.type == "deposit") = false := by rw [htype]; decide
    have hwr : (t.type == "withdraw_request") = true := by rw [htype]; decide
    unfold handleTransaction
    rw [hd]
    simp only [Bool.false_eq_true, if_false, hwr, if_true]
    unfold checkAndReserveBalance insertTransaction getAccountBalance getSupabaseClient configuredEnv noFaults
    by_cases happ : check_withdraw_request s t.accountId t.amount = true
    · by_cases hdup : s.transactions.any (fun r => r.id == t.id) = true
      · simp [happ, hdup, htype]
      · simp only [Bool.not_eq_true] at hdup
        simp [happ, hdup, htype]
    · simp only [Bool.not_eq_true] at happ
      by_cases hdup : s.transactions.any (fun r => r.id == t.id) = true
      · simp [happ, hdup, htype]
      · simp only [Bool.not_eq_true] at hdup
        simp [happ, hdup, htype]
  · have hd : (t.type == "deposit") = false := by rw [htype]; decide
    have hwr : (t.type == "withdraw_request") = false := by rw [htype]; decide
    have hw : (t.type == "withdraw") = true := by rw [htype]; decide
    unfold handleTransaction
    rw [hd]
    simp only [Bool.false_eq_true, if_false, hwr, hw, if_true]
    unfold insertTransaction decrementAccountBalance getAccountBalance updateAccountBalance getSupabaseClient configuredEnv noFaults
    by_cases hdup : s.transactions.any (fun r => r.id == t.id) = true
    · simp [hdup, htype]
    · simp only [Bool.not_eq_true] at hdup
      simp [hdup, htype]

/-- C10 witness: a deposit of -5 on an empty account is answered 200 and
decreases the balance to -5. -/
theorem c10_no_amount_validation_witness :
    (handleTransaction configuredEnv noFaults ⟨"t9", "deposit", -5, "acc9", "ts9"⟩ emptyStore).status = 200 ∧
    (handleTransaction configuredEnv noFaults ⟨"t9", "deposit", -5, "acc9", "ts9"⟩ emptyStore).store.balanceOf "acc9"
      = -5 := by
  have h := (c10_no_amount_validation emptyStore ⟨"t9", "deposit", -5, "acc9", "ts9"⟩ (Or.inl rfl)).2 rfl
  simpa [emptyStore, Store.balanceOf] using h

end SlashBackend
